import Mathlib

/-!
Verification of the hotspot-ranking engine (`utils/hot_spot.py`,
class `MunicipalHotspotRanker`).

Shallow embedding conventions:
* Timestamps (`datetime`) are rationals counting seconds; `timedelta(hours=1)`
  is `3600` and `.total_seconds() / 3600.0` is division by `3600`.
* Python floats are modelled as rationals (all constants in the source are
  decimal literals, so no floating-point rounding is relevant to the claims).
* The TF-IDF vectorizer and cosine similarity come from sklearn (an external
  library).  They are abstracted by a `Vectorizer` oracle: `sim C a b` is the
  cosine similarity between the projection of text `a` into the vector space
  fitted on corpus `C` and the matrix row of text `b` in that space, and
  `transformOk C a` says whether projecting `a` against the vocabulary of `C`
  succeeds (the source wraps exactly one `transform` call in a bare
  `try/except`; on a fitted sklearn vectorizer `transform` does not raise for
  out-of-vocabulary input, so elsewhere the projection is treated as total).
* `self.tfidf_matrix` is modelled by the corpus it is currently fitted on
  (`Option (List String)`); `None` is the unfitted state and the number of
  matrix rows is the length of that corpus.
* Python dicts preserve insertion order, cluster ids only grow and clusters
  are never deleted individually, so `clusters` is an association list in
  insertion order and dict iteration is list order.
-/

namespace HotSpot

/-- Model of Python `str.strip()`: remove leading and trailing whitespace. -/
def pyStrip (s : String) : String :=
  String.mk (((s.toList.dropWhile Char.isWhitespace).reverse.dropWhile
      Char.isWhitespace).reverse)

/-- One entry of `self.clusters`: `{'representative': …, 'count': …, 'reports': […]}`. -/
structure Cluster where
  representative : String
  count : Nat
  reports : List Nat
deriving DecidableEq, Repr

/-- State of a `MunicipalHotspotRanker` instance (field for field). -/
structure Engine where
  report_texts : List String
  report_times : List ℚ
  report_cluster_map : List (Nat × Nat)
  clusters : List (Nat × Cluster)
  cluster_counter : Nat
  similarity_threshold : ℚ
  tfidf_matrix : Option (List String)
deriving DecidableEq, Repr

/-- Abstraction of the sklearn TF-IDF vectorizer plus cosine similarity. -/
structure Vectorizer where
  sim : List String → String → String → ℚ
  transformOk : List String → String → Bool

/-- State produced by `__init__(similarity_threshold)` with no db session. -/
def mkEngine (threshold : ℚ) : Engine :=
  { report_texts := []
    report_times := []
    report_cluster_map := []
    clusters := []
    cluster_counter := 0
    similarity_threshold := threshold
    tfidf_matrix := none }

/-- Dict lookup `self.clusters[cluster_id]` / `cluster_id in self.clusters`. -/
def lookupCluster (e : Engine) (cluster_id : Nat) : Option Cluster :=
  (e.clusters.find? (fun p => p.1 == cluster_id)).map Prod.snd

/-- Model of `_create_new_cluster(report_idx, text)`. -/
def create_new_cluster (e : Engine) (report_idx : Nat) (text : String) : Engine :=
  { e with
    report_cluster_map := e.report_cluster_map ++ [(report_idx, e.cluster_counter)]
    clusters := e.clusters ++
      [(e.cluster_counter, { representative := text, count := 1, reports := [report_idx] })]
    cluster_counter := e.cluster_counter + 1 }

/-- Update of one cluster entry performed by `_add_to_cluster`:
`count += 1` and `reports.append(report_idx)`; the representative is untouched. -/
def bumpCluster (cluster_id report_idx : Nat) (l : List (Nat × Cluster)) :
    List (Nat × Cluster) :=
  l.map (fun p =>
    if p.1 = cluster_id then
      (p.1, { p.2 with count := p.2.count + 1, reports := p.2.reports ++ [report_idx] })
    else p)

/-- Model of `_add_to_cluster(report_idx, cluster_id)`. -/
def add_to_cluster (e : Engine) (report_idx cluster_id : Nat) : Engine :=
  { e with
    report_cluster_map := e.report_cluster_map ++ [(report_idx, cluster_id)]
    clusters := bumpCluster cluster_id report_idx e.clusters }

/-- Model of `_rebuild_vectorizer()`: refit on the whole corpus when non-empty. -/
def rebuild_vectorizer (e : Engine) : Engine :=
  if 0 < e.report_texts.length then { e with tfidf_matrix := some e.report_texts } else e

/-- Similarity computed for one cluster inside `_find_matching_cluster`:
cosine similarity between the projected new text and the matrix row of the
cluster's first report (`cluster_info['reports'][0]`). -/
def repSim (V : Vectorizer) (C : List String) (text : String) (p : Nat × Cluster) : ℚ :=
  V.sim C text (C.getD p.2.reports.headI "")

/-- One scan step of the loop in `_find_matching_cluster`: keep the strictly
greater similarity, skipping clusters whose representative row is outside the
current matrix. -/
def scanStep (V : Vectorizer) (C : List String) (text : String)
    (acc : ℚ × Option Nat) (p : Nat × Cluster) : ℚ × Option Nat :=
  if p.2.reports.headI < C.length then
    if acc.1 < repSim V C text p then (repSim V C text p, some p.1) else acc
  else acc

/-- Model of `_find_matching_cluster(text)`. -/
def find_matching_cluster (V : Vectorizer) (e : Engine) (text : String) : Option Nat :=
  match e.tfidf_matrix with
  | none => none
  | some C =>
    if e.clusters = [] ∨ C = [] then none
    else if ¬ V.transformOk C text then none
    else
      let best := e.clusters.foldl (scanStep V C text) ((0 : ℚ), (none : Option Nat))
      if e.similarity_threshold ≤ best.1 then best.2 else none

/-- Model of `add_report(text, report_time)`.  The returned engine is the
state of `self` when the call finishes; the `Except` value is the return
value (`report_idx`) or the raised `ValueError`.  The emptiness test happens
before any mutation, exactly as in the source. -/
def add_report (V : Vectorizer) (e : Engine) (text : String) (report_time : ℚ) :
    Engine × Except String Nat :=
  if text = "" ∨ pyStrip text = "" then
    (e, Except.error "问题文本不能为空")
  else
    let t := pyStrip text
    let report_idx := e.report_texts.length
    let e1 := { e with
      report_texts := e.report_texts ++ [t]
      report_times := e.report_times ++ [report_time] }
    if report_idx = 0 then
      ({ create_new_cluster e1 report_idx t with tfidf_matrix := some [t] },
        Except.ok report_idx)
    else
      let e2 := if e1.tfidf_matrix = none ∨ e1.tfidf_matrix = some [] then
        rebuild_vectorizer e1 else e1
      match find_matching_cluster V e2 t with
      | none =>
          (rebuild_vectorizer (create_new_cluster e2 report_idx t), Except.ok report_idx)
      | some cid =>
          (rebuild_vectorizer (add_to_cluster e2 report_idx cid), Except.ok report_idx)

/-- Sequential replay of `add_report` calls; a call that raises leaves the
state exactly as it was (the `ValueError` is raised before any mutation). -/
def runAdds (V : Vectorizer) (e : Engine) (inputs : List (String × ℚ)) : Engine :=
  inputs.foldl (fun st p => (add_report V st p.1 p.2).1) e

/-- Model of `compute_heat_for_cluster(cluster_id, now)`. -/
def compute_heat_for_cluster (e : Engine) (cluster_id : Nat) (now : ℚ) : ℚ :=
  match lookupCluster e cluster_id with
  | none => 0
  | some c =>
    let report_indices := c.reports
    let report_score : ℚ := (report_indices.length : ℚ) * 2
    let one_hour_ago : ℚ := now - 3600
    let recent_count : Nat :=
      (report_indices.filter (fun i =>
        decide (i < e.report_times.length) &&
        decide (one_hour_ago ≤ e.report_times.getD i 0))).length
    let concentrated_bonus : ℚ :=
      if 3 < recent_count then ((recent_count : ℚ) - 3) * 1 else 0
    let earliest : Option ℚ := report_indices.foldl
      (fun acc i =>
        if i < e.report_times.length then
          let t := e.report_times.getD i 0
          match acc with
          | none => some t
          | some m => if t < m then some t else some m
        else acc)
      (none : Option ℚ)
    let hours_diff : ℚ :=
      match earliest with
      | none => 0
      | some t => max 0 ((now - t) / 3600)
    let time_decay : ℚ := hours_diff * (1 / 10)
    max 0 (report_score + concentrated_bonus - time_decay)

/-- Similarity of the query text to the matrix row of report `i`
(`cosine_similarity(query_vector, tfidf_matrix)[0][i]`). -/
def simTo (V : Vectorizer) (C : List String) (text : String) (i : Nat) : ℚ :=
  V.sim C text (C.getD i "")

/-- Total order on row indices realizing `np.argsort(similarities)[::-1]`:
descending similarity with the index as tie-break (numpy's default argsort
leaves the tie order unspecified; no claim depends on it). -/
def argsortKey (V : Vectorizer) (C : List String) (text : String) (i j : Nat) : Bool :=
  decide (simTo V C text j < simTo V C text i ∨
    (simTo V C text j = simTo V C text i ∧ i ≤ j))

/-- Model of `find_similar_reports(text, top_k)`: the query is compared to
every matrix row, the indices are ordered by descending similarity, the
first `top_k` are kept and then filtered to similarity ≥ threshold. -/
def find_similar_reports (V : Vectorizer) (e : Engine) (text : String) (top_k : Nat) :
    List (String × ℚ) :=
  if e.report_texts = [] ∨ e.tfidf_matrix = none then []
  else
    let C := e.tfidf_matrix.getD []
    let top_indices :=
      ((List.range C.length).mergeSort (argsortKey V C text)).take top_k
    (top_indices.filter
        (fun i => decide (e.similarity_threshold ≤ simTo V C text i))).map
      (fun i => (e.report_texts.getD i "", simTo V C text i))

/-- Model of `load_from_database(db_session)`.  The argument is the outcome
of the work-order query: `Except.error` when the provider raises.  The whole
body runs inside `try … except Exception as e: print(e)`, so a provider error
is caught before the clearing assignments run: the old state survives and the
function returns normally.  On success the state is cleared and each usable
row is replayed through `add_report` (whose own raise cannot fire, because
rows with blank content are skipped). -/
def load_from_database (V : Vectorizer) (e : Engine)
    (db : Except String (List (String × ℚ))) : Engine × Except String Unit :=
  match db with
  | Except.error _ => (e, Except.ok ())
  | Except.ok rows =>
    let cleared := { e with
      report_texts := []
      report_times := []
      report_cluster_map := []
      clusters := []
      cluster_counter := 0
      tfidf_matrix := none }
    let loaded := rows.foldl
      (fun st row =>
        if row.1 ≠ "" ∧ pyStrip row.1 ≠ "" then (add_report V st (pyStrip row.1) row.2).1
        else st)
      cleared
    (loaded, Except.ok ())

/-! ## Heat scorer: claim-side definitions (C1, C10) -/

/-- Timestamps of a cluster's members, in member order (claim-side view of
"the members' timestamps"). -/
def memberTimes (e : Engine) (c : Cluster) : List ℚ :=
  c.reports.filterMap (fun i => e.report_times[i]?)

/-- Heat formula exactly as claim C1 words it: `recent_count` counts members
whose timestamp falls within the trailing 1-hour window ending at `now`
(both bounds), and `time_decay` is 0.1 per hour elapsed from the earliest
member's timestamp to `now`, with no clamping of the elapsed time. -/
def heatClaimLiteral (e : Engine) (cluster_id : Nat) (now : ℚ) : ℚ :=
  match lookupCluster e cluster_id with
  | none => 0
  | some c =>
    let report_score : ℚ := (c.reports.length : ℚ) * 2
    let recent_count : Nat :=
      ((memberTimes e c).filter (fun t => decide (now - 3600 ≤ t ∧ t ≤ now))).length
    let concentration_bonus : ℚ :=
      if 3 < recent_count then (recent_count : ℚ) - 3 else 0
    let time_decay : ℚ :=
      match (memberTimes e c).min? with
      | none => 0
      | some m => ((now - m) / 3600) * (1 / 10)
    max 0 (report_score + concentration_bonus - time_decay)

/-- Heat formula as claim C1 must be amended to match the source: the recent
window is `timestamp ≥ now − 1h` with no upper bound, and the decayed hour
count is clamped at zero before scaling by 0.1. -/
def heatAmended (e : Engine) (cluster_id : Nat) (now : ℚ) : ℚ :=
  match lookupCluster e cluster_id with
  | none => 0
  | some c =>
    let report_score : ℚ := (c.reports.length : ℚ) * 2
    let recent_count : Nat :=
      ((memberTimes e c).filter (fun t => decide (now - 3600 ≤ t))).length
    let concentration_bonus : ℚ :=
      if 3 < recent_count then (recent_count : ℚ) - 3 else 0
    let time_decay : ℚ :=
      match (memberTimes e c).min? with
      | none => 0
      | some m => max 0 ((now - m) / 3600) * (1 / 10)
    max 0 (report_score + concentration_bonus - time_decay)

/-- Bridge between the source's guarded indexing (`idx < len(times)` and
`times[idx]`) and the claim-side member-timestamp list. -/
lemma length_filter_getD_eq (times : List ℚ) (P : ℚ → Bool) (idxs : List Nat) :
    (idxs.filter (fun i =>
        decide (i < times.length) && P (times.getD i 0))).length
      = ((idxs.filterMap (fun i => times[i]?)).filter P).length := by
  rw [← List.countP_eq_length_filter, ← List.countP_eq_length_filter]
  induction idxs with
  | nil => rfl
  | cons i rest ih =>
    by_cases hi : i < times.length
    · have hg : times[i]? = some (times.getD i 0) := by
        rw [List.getD_eq_getElem?_getD, List.getElem?_eq_getElem hi]
        rfl
      have hc : (decide (i < times.length) && P (times.getD i 0)) = P (times.getD i 0) := by
        simp [hi]
      simp only [List.countP_cons, List.filterMap_cons, hg, ih]
      rw [hc]
    · have hg : times[i]? = none := List.getElem?_eq_none (le_of_not_lt hi)
      have hc : (decide (i < times.length) && P (times.getD i 0)) = false := by
        simp [hi]
      simp only [List.countP_cons, List.filterMap_cons, hg, hc, ih]
      simp

/-- Bridge between the source's left fold that tracks the earliest seen
timestamp and `List.min?` over the member-timestamp list. -/
lemma foldl_earliest_eq (times : List ℚ) (idxs : List Nat) (acc : Option ℚ) :
    idxs.foldl
      (fun acc i =>
        if i < times.length then
          match acc with
          | none => some (times.getD i 0)
          | some m => if times.getD i 0 < m then some (times.getD i 0) else some m
        else acc) acc
      = match acc with
        | none => (idxs.filterMap (fun i => times[i]?)).min?
        | some m => some ((idxs.filterMap (fun i => times[i]?)).foldl min m) := by
  induction idxs generalizing acc with
  | nil => cases acc <;> rfl
  | cons i rest ih =>
    by_cases hi : i < times.length
    · obtain ⟨t, hg⟩ : ∃ t, times[i]? = some t := ⟨times[i], List.getElem?_eq_getElem hi⟩
      have hgd : times.getD i 0 = t := by
        rw [List.getD_eq_getElem?_getD, hg]
        rfl
      have hmin : ∀ m : ℚ, (if t < m then some t else some m) = some (min m t) := by
        intro m
        rcases lt_or_le t m with h | h
        · rw [if_pos h, min_eq_right h.le]
        · rw [if_neg (not_lt.mpr h), min_eq_left h]
      cases acc with
      | none =>
        simp only [List.foldl_cons, if_pos hi, hgd]
        rw [ih]
        simp only [List.filterMap_cons, hg]
        rfl
      | some m =>
        simp only [List.foldl_cons, if_pos hi, hgd, hmin m]
        rw [ih]
        simp only [List.filterMap_cons, hg]
        rfl
    · have hg : times[i]? = none := List.getElem?_eq_none (le_of_not_lt hi)
      cases acc <;>
        simp only [List.foldl_cons, if_neg hi] <;>
        rw [ih] <;>
        simp only [List.filterMap_cons, hg]

/-! ## Concrete instances used by witnesses and counterexamples -/

/-- Vectorizer whose projections always succeed and whose similarity is zero;
enough for claims that do not depend on similarity values. -/
def Vtest : Vectorizer :=
  { sim := fun _ _ _ => 0, transformOk := fun _ _ => true }

/-- Reachable state holding exactly one report "aaa" in one cluster, as left
by `add_report` on a fresh engine with the given threshold. -/
def oneClusterEngine (threshold : ℚ) : Engine :=
  { report_texts := ["aaa"]
    report_times := [0]
    report_cluster_map := [(0, 0)]
    clusters := [(0, { representative := "aaa", count := 1, reports := [0] })]
    cluster_counter := 1
    similarity_threshold := threshold
    tfidf_matrix := some ["aaa"] }

/-- Engine with one 5-member cluster whose earliest member is 10 hours in the
future of the reference time `now = 0` and whose other four members are 2
hours in the future: the code counts all five as "recent" and clamps the
decay at zero, the claim's literal formula does neither. -/
def heatCexEngine : Engine :=
  { report_texts := ["t0", "t1", "t2", "t3", "t4"]
    report_times := [36000, 7200, 7200, 7200, 7200]
    report_cluster_map := [(0, 0), (1, 0), (2, 0), (3, 0), (4, 0)]
    clusters := [(0, { representative := "t0", count := 5, reports := [0, 1, 2, 3, 4] })]
    cluster_counter := 1
    similarity_threshold := 3 / 5
    tfidf_matrix := some ["t0", "t1", "t2", "t3", "t4"] }

/-- Engine realizing the spec's worked example at `now = 36000`: a cluster
with 5 members, 4 timestamped within the last hour and one 10 hours old. -/
def heatExampleEngine : Engine :=
  { heatCexEngine with report_times := [0, 35900, 35900, 35900, 35900] }

/-! ## C1: heat formula -/

/-- Claim C1, counterexample: at a reference time earlier than the members'
timestamps the code clamps the decay at zero and still counts future members
as recent (timestamp ≥ now − 1h has no upper bound), so it returns 12 where
the claim's literal formula max(0, 10 + 2·[window] − 0.1·hours) yields 51/5;
the claim's equation fails on this cluster/time input. -/
theorem heat_claim_formula_cex :
    compute_heat_for_cluster heatCexEngine 0 0 = 12 ∧
      heatClaimLiteral heatCexEngine 0 0 = 51 / 5 ∧
      compute_heat_for_cluster heatCexEngine 0 0 ≠ heatClaimLiteral heatCexEngine 0 0 := by
  have h1 : compute_heat_for_cluster heatCexEngine 0 0 = 12 := by
    norm_num [compute_heat_for_cluster, heatCexEngine, lookupCluster, List.find?,
      List.filter, List.foldl, List.getD, max_def]
  have h2 : heatClaimLiteral heatCexEngine 0 0 = 51 / 5 := by
    norm_num [heatClaimLiteral, heatCexEngine, lookupCluster, memberTimes, List.find?,
      List.filter, List.filterMap, List.min?, List.foldl, max_def, min_def]
  refine ⟨h1, h2, ?_⟩
  rw [h1, h2]
  norm_num

/-- Claim C1 (amended): for every cluster id present in the engine and every
reference time `now`, `compute_heat_for_cluster` returns
max(0, report_score + concentration_bonus − time_decay) with
report_score = member_count × 2, concentration_bonus = (recent_count − 3)
when the number of members with timestamp ≥ now − 1h exceeds 3 and 0
otherwise, and time_decay = 0.1 × max(0, hours from the earliest member's
timestamp to now); the result is never negative. -/
theorem heat_eq_amended_formula (e : Engine) (cluster_id : Nat) (now : ℚ)
    (c : Cluster) (h : lookupCluster e cluster_id = some c) :
    compute_heat_for_cluster e cluster_id now = heatAmended e cluster_id now ∧
      0 ≤ compute_heat_for_cluster e cluster_id now := by
  constructor
  · simp only [compute_heat_for_cluster, heatAmended, memberTimes, h, mul_one]
    rw [length_filter_getD_eq e.report_times (fun t => decide (now - 3600 ≤ t)) c.reports,
      foldl_earliest_eq e.report_times c.reports none]
    dsimp only
    cases hE : (List.filterMap (fun i => e.report_times[i]?) c.reports).min? with
    | none => dsimp only; norm_num
    | some m => dsimp only
  · simp only [compute_heat_for_cluster, h]
    exact le_max_left _ _

/-- Witness for C1's amended theorem at the spec's worked example: 5 members,
4 within the last hour, one 10 hours old, heat exactly 10. -/
theorem heat_eq_amended_formula_witness :
    (compute_heat_for_cluster heatExampleEngine 0 36000
        = heatAmended heatExampleEngine 0 36000 ∧
      0 ≤ compute_heat_for_cluster heatExampleEngine 0 36000) ∧
      compute_heat_for_cluster heatExampleEngine 0 36000 = 10 :=
  ⟨heat_eq_amended_formula heatExampleEngine 0 36000
      { representative := "t0", count := 5, reports := [0, 1, 2, 3, 4] } rfl,
    by
      norm_num [compute_heat_for_cluster, heatExampleEngine, heatCexEngine, lookupCluster,
        List.find?, List.filter, List.foldl, List.getD, max_def]⟩

/-! ## C10: heat of an absent cluster id -/

/-- Claim C10: for every cluster id not present in the engine's cluster map
and every reference time, `compute_heat_for_cluster` returns 0 rather than
failing. -/
theorem heat_missing_cluster_zero (e : Engine) (cluster_id : Nat) (now : ℚ)
    (h : lookupCluster e cluster_id = none) :
    compute_heat_for_cluster e cluster_id now = 0 := by
  simp only [compute_heat_for_cluster, h]

/-- Witness for C10 on a freshly constructed engine and an id never created. -/
theorem heat_missing_cluster_zero_witness :
    compute_heat_for_cluster (mkEngine (3 / 5)) 7 0 = 0 :=
  heat_missing_cluster_zero (mkEngine (3 / 5)) 7 0 rfl

/-! ## C4: blank input is rejected without touching the state -/

/-- Claim C4: for every text that is empty or whitespace-only, `add_report`
raises the InvalidInput `ValueError` and the engine state is exactly the
state before the call. -/
theorem add_report_blank_rejected (V : Vectorizer) (e : Engine) (text : String)
    (report_time : ℚ) (h : pyStrip text = "") :
    add_report V e text report_time = (e, Except.error "问题文本不能为空") := by
  unfold add_report
  rw [if_pos (Or.inr h)]

/-- Witness for C4 on a whitespace-only text. -/
theorem add_report_blank_rejected_witness :
    add_report Vtest (oneClusterEngine (3 / 5)) "  \t " 0
      = (oneClusterEngine (3 / 5), Except.error "问题文本不能为空") :=
  add_report_blank_rejected Vtest (oneClusterEngine (3 / 5)) "  \t " 0 (by decide)

/-! ## C5: provider failure during reload -/

/-- Claim C5 (the code violates it): when the historical-data provider errors
during `load_from_database`, the `except Exception: print(e)` handler
swallows the failure before the clearing assignments run, so the call
returns normally and the engine keeps its previous, non-cleared state. -/
theorem load_failure_swallowed_state_kept :
    load_from_database Vtest (oneClusterEngine (3 / 5)) (Except.error "connection refused")
        = (oneClusterEngine (3 / 5), Except.ok ()) ∧
      (oneClusterEngine (3 / 5)).clusters ≠ [] :=
  ⟨rfl, by decide⟩

/-! ## C6: projection failure against the stale vocabulary -/

/-- Vectorizer whose projection against any fitted vocabulary fails while
the similarity oracle would report a perfect match: the scenario of claim C6
where a retry after the rebuild would have succeeded. -/
def VC6 : Vectorizer :=
  { sim := fun _ _ _ => 1, transformOk := fun _ _ => false }

/-- A failing `transform` makes `_find_matching_cluster` answer "no match"
through the bare `except` handler, whatever the clusters are. -/
lemma find_matching_cluster_eq_none (V : Vectorizer) (e : Engine) (text : String)
    (C : List String) (htf : e.tfidf_matrix = some C)
    (hfail : V.transformOk C text = false) :
    find_matching_cluster V e text = none := by
  unfold find_matching_cluster
  rw [htf]
  dsimp only
  split_ifs with h1 h2 h3 <;> first | rfl | simp [hfail] at h2

/-- Claim C6, counterexample: with one existing cluster, a similarity oracle
that reports 1 (≥ threshold 3/5) in every vector space, and a projection
that fails, `add_report` quietly creates a second cluster; had the
comparison been retried after the rebuild, the report would have joined the
existing cluster.  The call still returns the new index 1. -/
theorem vocabulary_miss_no_retry_cex :
    (add_report VC6 (oneClusterEngine (mkRat 3 5)) "bbb" 0).2 = Except.ok 1 ∧
      (add_report VC6 (oneClusterEngine (mkRat 3 5)) "bbb" 0).1.clusters.length = 2 ∧
      (oneClusterEngine (mkRat 3 5)).similarity_threshold ≤
        VC6.sim ((add_report VC6 (oneClusterEngine (mkRat 3 5)) "bbb" 0).1.report_texts)
          "bbb" "aaa" :=
  ⟨rfl, by decide, by decide⟩

/-- Claim C6 (amended): when projecting the new text against the stale
vocabulary raises, `add_report` treats the match step as "no match found":
it opens a brand-new cluster holding only the new report, then rebuilds the
vector space over the whole corpus; the error is never surfaced and the call
returns the new report's index.  The comparison is not retried within the
call. -/
theorem vocabulary_miss_new_cluster (V : Vectorizer) (e : Engine) (text : String)
    (report_time : ℚ) (hval : ¬ pyStrip text = "") (hne : e.report_texts ≠ [])
    (htf : e.tfidf_matrix = some e.report_texts)
    (hfail : V.transformOk e.report_texts (pyStrip text) = false) :
    (add_report V e text report_time).2 = Except.ok e.report_texts.length ∧
      (add_report V e text report_time).1.clusters
        = e.clusters ++ [(e.cluster_counter,
            { representative := pyStrip text, count := 1,
              reports := [e.report_texts.length] })] ∧
      (add_report V e text report_time).1.tfidf_matrix
        = some (e.report_texts ++ [pyStrip text]) := by
  have hblank : ¬ (text = "" ∨ pyStrip text = "") := by
    rintro (rfl | h)
    · exact hval rfl
    · exact hval h
  have hlen : ¬ e.report_texts.length = 0 := fun h => hne (List.length_eq_zero.mp h)
  have hfm : find_matching_cluster V
      { e with
        report_texts := e.report_texts ++ [pyStrip text]
        report_times := e.report_times ++ [report_time] } (pyStrip text) = none :=
    find_matching_cluster_eq_none V _ _ e.report_texts htf hfail
  have hc : ¬ (e.tfidf_matrix = none ∨ e.tfidf_matrix = some []) := by
    rw [htf]
    simp [hne]
  simp only [add_report]
  rw [if_neg hblank, if_neg hlen, if_neg hc, hfm]
  refine ⟨rfl, ?_, ?_⟩ <;> simp [create_new_cluster, rebuild_vectorizer]

/-- Witness for C6's amended theorem on a reachable one-cluster engine. -/
theorem vocabulary_miss_new_cluster_witness :
    (add_report VC6 (oneClusterEngine (mkRat 3 5)) "ccc" 0).2
        = Except.ok (oneClusterEngine (mkRat 3 5)).report_texts.length ∧
      (add_report VC6 (oneClusterEngine (mkRat 3 5)) "ccc" 0).1.clusters
        = (oneClusterEngine (mkRat 3 5)).clusters ++
            [((oneClusterEngine (mkRat 3 5)).cluster_counter,
              { representative := pyStrip "ccc", count := 1,
                reports := [(oneClusterEngine (mkRat 3 5)).report_texts.length] })] ∧
      (add_report VC6 (oneClusterEngine (mkRat 3 5)) "ccc" 0).1.tfidf_matrix
        = some ((oneClusterEngine (mkRat 3 5)).report_texts ++ [pyStrip "ccc"]) :=
  vocabulary_miss_new_cluster VC6 (oneClusterEngine (mkRat 3 5)) "ccc" 0
    (by decide) (by decide) rfl rfl

/-! ## C2: Assignment rule of `add_report` -/

/-- Characterization of the scan loop of `_find_matching_cluster` starting
from an arbitrary accumulator: the running best only grows, it bounds every
valid similarity seen, and either nothing ever improved on the start value or
the final accumulator names the first cluster attaining the final best. -/
lemma scan_foldl_spec (V : Vectorizer) (C : List String) (text : String)
    (l : List (Nat × Cluster)) (b : ℚ) (o : Option Nat) :
    b ≤ (l.foldl (scanStep V C text) (b, o)).1 ∧
    (∀ p ∈ l, p.2.reports.headI < C.length →
      repSim V C text p ≤ (l.foldl (scanStep V C text) (b, o)).1) ∧
    (((l.foldl (scanStep V C text) (b, o)).1 = b ∧
        (l.foldl (scanStep V C text) (b, o)).2 = o) ∨
      ∃ l₁ p l₂, l = l₁ ++ p :: l₂ ∧ p.2.reports.headI < C.length ∧
        (l.foldl (scanStep V C text) (b, o)).1 = repSim V C text p ∧
        (l.foldl (scanStep V C text) (b, o)).2 = some p.1 ∧
        b < repSim V C text p ∧
        (∀ q ∈ l₁, q.2.reports.headI < C.length →
          repSim V C text q < repSim V C text p) ∧
        (∀ q ∈ l₂, q.2.reports.headI < C.length →
          repSim V C text q ≤ repSim V C text p)) := by
  induction l generalizing b o with
  | nil => exact ⟨le_refl b, by simp, Or.inl ⟨rfl, rfl⟩⟩
  | cons p rest ih =>
    by_cases hv : p.2.reports.headI < C.length
    · by_cases hlt : b < repSim V C text p
      · have hstep : scanStep V C text (b, o) p = (repSim V C text p, some p.1) := by
          simp only [scanStep, if_pos hv]
          rw [if_pos hlt]
        rw [List.foldl_cons, hstep]
        obtain ⟨ih1, ih2, ih3⟩ := ih (repSim V C text p) (some p.1)
        refine ⟨le_trans hlt.le ih1, ?_, ?_⟩
        · intro q hq hqv
          rcases List.mem_cons.mp hq with rfl | hq
          · exact ih1
          · exact ih2 q hq hqv
        · rcases ih3 with ⟨hF1, hF2⟩ | ⟨r₁, q, r₂, hrest, hqv, hF1, hF2, hblt, hr₁, hr₂⟩
          · refine Or.inr ⟨[], p, rest, by simp, hv, hF1, hF2, hlt, by simp, ?_⟩
            intro q hq hqv
            have h := ih2 q hq hqv
            rwa [hF1] at h
          · refine Or.inr ⟨p :: r₁, q, r₂, by simp [hrest], hqv, hF1, hF2,
              lt_trans hlt hblt, ?_, hr₂⟩
            intro q' hq' hq'v
            rcases List.mem_cons.mp hq' with rfl | hq'
            · exact hblt
            · exact hr₁ q' hq' hq'v
      · have hstep : scanStep V C text (b, o) p = (b, o) := by
          simp only [scanStep, if_pos hv]
          rw [if_neg hlt]
        rw [List.foldl_cons, hstep]
        obtain ⟨ih1, ih2, ih3⟩ := ih b o
        refine ⟨ih1, ?_, ?_⟩
        · intro q hq hqv
          rcases List.mem_cons.mp hq with rfl | hq
          · exact le_trans (not_lt.mp hlt) ih1
          · exact ih2 q hq hqv
        · rcases ih3 with h | ⟨r₁, q, r₂, hrest, hqv, hF1, hF2, hblt, hr₁, hr₂⟩
          · exact Or.inl h
          · refine Or.inr ⟨p :: r₁, q, r₂, by simp [hrest], hqv, hF1, hF2, hblt, ?_, hr₂⟩
            intro q' hq' hq'v
            rcases List.mem_cons.mp hq' with rfl | hq'
            · exact lt_of_le_of_lt (not_lt.mp hlt) hblt
            · exact hr₁ q' hq' hq'v
    · have hstep : scanStep V C text (b, o) p = (b, o) := by
        simp only [scanStep]
        rw [if_neg hv]
      rw [List.foldl_cons, hstep]
      obtain ⟨ih1, ih2, ih3⟩ := ih b o
      refine ⟨ih1, ?_, ?_⟩
      · intro q hq hqv
        rcases List.mem_cons.mp hq with rfl | hq
        · exact absurd hqv hv
        · exact ih2 q hq hqv
      · rcases ih3 with h | ⟨r₁, q, r₂, hrest, hqv, hF1, hF2, hblt, hr₁, hr₂⟩
        · exact Or.inl h
        · refine Or.inr ⟨p :: r₁, q, r₂, by simp [hrest], hqv, hF1, hF2, hblt, ?_, hr₂⟩
          intro q' hq' hq'v
          rcases List.mem_cons.mp hq' with rfl | hq'
          · exact absurd hq'v hv
          · exact hr₁ q' hq' hq'v

/-- Outcome of `_find_matching_cluster` when the projection succeeds: either
no match (and every valid cluster similarity is non-positive or below the
threshold), or it returns the first cluster in scan order attaining the
maximal similarity, which is positive and at least the threshold. -/
lemma find_matching_cluster_spec (V : Vectorizer) (e : Engine) (text : String)
    (C : List String) (htf : e.tfidf_matrix = some C) (hC : C ≠ [])
    (hcl : e.clusters ≠ []) (hok : V.transformOk C text = true) :
    (find_matching_cluster V e text = none ∧
      ∀ p ∈ e.clusters, p.2.reports.headI < C.length →
        (repSim V C text p ≤ 0 ∨ repSim V C text p < e.similarity_threshold)) ∨
    (∃ l₁ p l₂, e.clusters = l₁ ++ p :: l₂ ∧ p.2.reports.headI < C.length ∧
      find_matching_cluster V e text = some p.1 ∧
      0 < repSim V C text p ∧
      e.similarity_threshold ≤ repSim V C text p ∧
      (∀ q ∈ l₁, q.2.reports.headI < C.length →
        repSim V C text q < repSim V C text p) ∧
      (∀ q ∈ e.clusters, q.2.reports.headI < C.length →
        repSim V C text q ≤ repSim V C text p)) := by
  have hfind : find_matching_cluster V e text
      = if e.similarity_threshold ≤ (e.clusters.foldl (scanStep V C text) (0, none)).1
        then (e.clusters.foldl (scanStep V C text) (0, none)).2 else none := by
    unfold find_matching_cluster
    rw [htf]
    dsimp only
    rw [if_neg (by simp [hcl, hC]), if_neg (by simp [hok])]
  obtain ⟨h1, h2, h3⟩ := scan_foldl_spec V C text e.clusters 0 none
  rcases h3 with ⟨hF1, hF2⟩ | ⟨l₁, p, l₂, hdec, hpv, hF1, hF2, hpos, hl₁, hl₂⟩
  · left
    constructor
    · rw [hfind, hF2]
      split_ifs <;> rfl
    · intro p hp hpv
      left
      calc repSim V C text p ≤ _ := h2 p hp hpv
        _ = 0 := hF1
  · by_cases hθ : e.similarity_threshold ≤ repSim V C text p
    · right
      refine ⟨l₁, p, l₂, hdec, hpv, ?_, hpos, hθ, hl₁, ?_⟩
      · rw [hfind, hF2, if_pos (by rw [hF1]; exact hθ)]
      · intro q hq hqv
        have h := h2 q hq hqv
        rwa [hF1] at h
    · left
      constructor
      · rw [hfind, if_neg (by rw [hF1]; exact hθ)]
      · intro q hq hqv
        right
        calc repSim V C text q ≤ repSim V C text p := by
              have h := h2 q hq hqv
              rwa [hF1] at h
          _ < e.similarity_threshold := not_le.mp hθ

/-- Refitting the vector space only replaces the matrix. -/
lemma rebuild_vectorizer_clusters (x : Engine) :
    (rebuild_vectorizer x).clusters = x.clusters := by
  unfold rebuild_vectorizer
  split_ifs <;> rfl

/-- Vectorizer with every similarity exactly zero against the only existing
representative; used to exhibit the `best_similarity = 0` edge of the
assignment rule. -/
def V0 : Vectorizer :=
  { sim := fun _ a b => if a = b then 1 else 0, transformOk := fun _ _ => true }

/-- Claim C2, counterexample: on an engine with similarity_threshold 0 and a
single cluster, a new unrelated text has best similarity 0 ≥ threshold, so
the claim says it must join that cluster; the code instead opens a new
cluster, because `best_cluster_id` stays `None` unless some similarity is
strictly positive. -/
theorem assignment_rule_cex :
    (∀ p ∈ (oneClusterEngine 0).clusters,
        repSim V0 (oneClusterEngine 0).report_texts "bbb" p = 0) ∧
      (oneClusterEngine 0).similarity_threshold ≤ 0 ∧
      (add_report V0 (oneClusterEngine 0) "bbb" 0).1.clusters.length
        = (oneClusterEngine 0).clusters.length + 1 :=
  ⟨by decide, by decide, by decide⟩

/-- Claim C2 (amended): on a non-empty engine (hypotheses are the reachable
state invariants), `add_report` succeeds returning the new index; if some
cluster has strictly positive similarity that also meets the threshold, the
report joins the cluster with the greatest similarity — lowest id on exact
ties — via `count+1` and a `reports` append with the representative
untouched (`bumpCluster`); if instead every cluster similarity is
non-positive or below the threshold, a brand-new cluster is created with
this report as its sole member and representative. -/
theorem add_report_assignment_rule
    (V : Vectorizer) (e : Engine) (text : String) (report_time : ℚ)
    (hval : ¬ pyStrip text = "") (hne : e.report_texts ≠ []) (hcl : e.clusters ≠ [])
    (htf : e.tfidf_matrix = some e.report_texts)
    (hok : V.transformOk e.report_texts (pyStrip text) = true)
    (hheads : ∀ p ∈ e.clusters, p.2.reports.headI < e.report_texts.length)
    (hsorted : (e.clusters.map Prod.fst).Chain' (· < ·)) :
    (add_report V e text report_time).2 = Except.ok e.report_texts.length ∧
      ((∃ p ∈ e.clusters, 0 < repSim V e.report_texts (pyStrip text) p ∧
          e.similarity_threshold ≤ repSim V e.report_texts (pyStrip text) p) →
        ∃ p ∈ e.clusters,
          (∀ q ∈ e.clusters, repSim V e.report_texts (pyStrip text) q
              ≤ repSim V e.report_texts (pyStrip text) p) ∧
          (∀ q ∈ e.clusters, repSim V e.report_texts (pyStrip text) q
              = repSim V e.report_texts (pyStrip text) p → p.1 ≤ q.1) ∧
          (add_report V e text report_time).1.clusters
            = bumpCluster p.1 e.report_texts.length e.clusters) ∧
      ((∀ p ∈ e.clusters, repSim V e.report_texts (pyStrip text) p ≤ 0 ∨
          repSim V e.report_texts (pyStrip text) p < e.similarity_threshold) →
        (add_report V e text report_time).1.clusters
          = e.clusters ++ [(e.cluster_counter,
              { representative := pyStrip text, count := 1,
                reports := [e.report_texts.length] })]) := by
  have hblank : ¬ (text = "" ∨ pyStrip text = "") := by
    rintro (rfl | h)
    · exact hval rfl
    · exact hval h
  have hlen : ¬ e.report_texts.length = 0 := fun h => hne (List.length_eq_zero.mp h)
  have hc : ¬ (e.tfidf_matrix = none ∨ e.tfidf_matrix = some []) := by
    rw [htf]
    simp [hne]
  have hspec := find_matching_cluster_spec V
    { e with
      report_texts := e.report_texts ++ [pyStrip text]
      report_times := e.report_times ++ [report_time] }
    (pyStrip text) e.report_texts htf hne hcl hok
  simp only [add_report]
  rw [if_neg hblank, if_neg hlen, if_neg hc]
  rcases hspec with ⟨hnone, hbound⟩ | ⟨l₁, p, l₂, hdec, hpv, hsome, hpos, hθ, hl₁, hglob⟩
  · rw [hnone]
    refine ⟨rfl, ?_, ?_⟩
    · rintro ⟨p, hp, hp0, hpθ⟩
      rcases hbound p hp (hheads p hp) with h | h
      · exact absurd hp0 (not_lt.mpr h)
      · exact absurd hpθ (not_le.mpr h)
    · intro _
      rw [rebuild_vectorizer_clusters]
      simp [create_new_cluster]
  · rw [hsome]
    have hp_mem : p ∈ e.clusters := by
      rw [hdec]
      exact List.mem_append_right _ (List.mem_cons_self _ _)
    refine ⟨rfl, ?_, ?_⟩
    · intro _
      refine ⟨p, hp_mem, ?_, ?_, ?_⟩
      · intro q hq
        exact hglob q hq (hheads q hq)
      · have hpw : (e.clusters.map Prod.fst).Pairwise (· < ·) :=
          List.chain'_iff_pairwise.mp hsorted
        intro q hq heq
        have hq' := hq
        rw [hdec] at hq'
        rcases List.mem_append.mp hq' with hq1 | hq2
        · exact absurd heq (ne_of_lt (hl₁ q hq1 (hheads q hq)))
        · rcases List.mem_cons.mp hq2 with rfl | hq2
          · exact le_refl _
          · have h2 : ((p :: l₂).map Prod.fst).Pairwise (· < ·) := by
              rw [hdec, List.map_append] at hpw
              exact (List.pairwise_append.mp hpw).2.1
            rw [List.map_cons] at h2
            exact ((List.pairwise_cons.mp h2).1 q.1
              (List.mem_map_of_mem Prod.fst hq2)).le
      · rw [rebuild_vectorizer_clusters]
        rfl
    · intro hall
      rcases hall p hp_mem with h | h
      · exact absurd hpos (not_lt.mpr h)
      · exact absurd hθ (not_le.mpr h)

/-- Vectorizer realizing a 7/10 similarity between the new text "aab" and
the existing representative "aaa". -/
def VC2 : Vectorizer :=
  { sim := fun _ a b => if a = "aab" ∧ b = "aaa" then mkRat 7 10 else 0
    transformOk := fun _ _ => true }

/-- Witness for C2's amended theorem: one cluster, similarity 7/10 ≥ 3/5. -/
theorem add_report_assignment_rule_witness :
    (add_report VC2 (oneClusterEngine (mkRat 3 5)) "aab" 0).2
        = Except.ok (oneClusterEngine (mkRat 3 5)).report_texts.length ∧
      ((∃ p ∈ (oneClusterEngine (mkRat 3 5)).clusters,
          0 < repSim VC2 (oneClusterEngine (mkRat 3 5)).report_texts (pyStrip "aab") p ∧
          (oneClusterEngine (mkRat 3 5)).similarity_threshold
            ≤ repSim VC2 (oneClusterEngine (mkRat 3 5)).report_texts (pyStrip "aab") p) →
        ∃ p ∈ (oneClusterEngine (mkRat 3 5)).clusters,
          (∀ q ∈ (oneClusterEngine (mkRat 3 5)).clusters,
            repSim VC2 (oneClusterEngine (mkRat 3 5)).report_texts (pyStrip "aab") q
              ≤ repSim VC2 (oneClusterEngine (mkRat 3 5)).report_texts (pyStrip "aab") p) ∧
          (∀ q ∈ (oneClusterEngine (mkRat 3 5)).clusters,
            repSim VC2 (oneClusterEngine (mkRat 3 5)).report_texts (pyStrip "aab") q
              = repSim VC2 (oneClusterEngine (mkRat 3 5)).report_texts (pyStrip "aab") p →
              p.1 ≤ q.1) ∧
          (add_report VC2 (oneClusterEngine (mkRat 3 5)) "aab" 0).1.clusters
            = bumpCluster p.1 (oneClusterEngine (mkRat 3 5)).report_texts.length
                (oneClusterEngine (mkRat 3 5)).clusters) ∧
      ((∀ p ∈ (oneClusterEngine (mkRat 3 5)).clusters,
          repSim VC2 (oneClusterEngine (mkRat 3 5)).report_texts (pyStrip "aab") p ≤ 0 ∨
          repSim VC2 (oneClusterEngine (mkRat 3 5)).report_texts (pyStrip "aab") p
            < (oneClusterEngine (mkRat 3 5)).similarity_threshold) →
        (add_report VC2 (oneClusterEngine (mkRat 3 5)) "aab" 0).1.clusters
          = (oneClusterEngine (mkRat 3 5)).clusters ++
              [((oneClusterEngine (mkRat 3 5)).cluster_counter,
                { representative := pyStrip "aab", count := 1,
                  reports := [(oneClusterEngine (mkRat 3 5)).report_texts.length] })]) :=
  add_report_assignment_rule VC2 (oneClusterEngine (mkRat 3 5)) "aab" 0
    (by decide) (by decide) (by decide) rfl rfl (by decide)
    (by exact List.chain'_singleton 0)

/-! ## Evaluation lemmas for `add_report`, one per control path -/

/-- Blank input path: raise before any mutation. -/
lemma add_report_of_blank (V : Vectorizer) (e : Engine) (text : String)
    (report_time : ℚ) (h : text = "" ∨ pyStrip text = "") :
    add_report V e text report_time = (e, Except.error "问题文本不能为空") := by
  unfold add_report
  rw [if_pos h]

/-- First-report path: new singleton cluster, matrix fitted on the singleton
corpus. -/
lemma add_report_of_first (V : Vectorizer) (e : Engine) (text : String)
    (report_time : ℚ) (hval : ¬ (text = "" ∨ pyStrip text = ""))
    (hn : e.report_texts = []) :
    add_report V e text report_time
      = ({ report_texts := [pyStrip text]
           report_times := e.report_times ++ [report_time]
           report_cluster_map := e.report_cluster_map ++ [(0, e.cluster_counter)]
           clusters := e.clusters ++ [(e.cluster_counter,
             { representative := pyStrip text, count := 1, reports := [0] })]
           cluster_counter := e.cluster_counter + 1
           similarity_threshold := e.similarity_threshold
           tfidf_matrix := some [pyStrip text] }, Except.ok 0) := by
  simp only [add_report, hn]
  rw [if_neg hval]
  simp [create_new_cluster]

/-- No-match path on a fitted engine: new cluster appended, then rebuild. -/
lemma add_report_of_none (V : Vectorizer) (e : Engine) (text : String)
    (report_time : ℚ) (hval : ¬ (text = "" ∨ pyStrip text = ""))
    (hne : e.report_texts ≠ []) (htf : e.tfidf_matrix = some e.report_texts)
    (hfm : find_matching_cluster V
      { e with
        report_texts := e.report_texts ++ [pyStrip text]
        report_times := e.report_times ++ [report_time] } (pyStrip text) = none) :
    add_report V e text report_time
      = ({ report_texts := e.report_texts ++ [pyStrip text]
           report_times := e.report_times ++ [report_time]
           report_cluster_map := e.report_cluster_map ++
             [(e.report_texts.length, e.cluster_counter)]
           clusters := e.clusters ++ [(e.cluster_counter,
             { representative := pyStrip text, count := 1,
               reports := [e.report_texts.length] })]
           cluster_counter := e.cluster_counter + 1
           similarity_threshold := e.similarity_threshold
           tfidf_matrix := some (e.report_texts ++ [pyStrip text]) },
          Except.ok e.report_texts.length) := by
  have hlen : ¬ e.report_texts.length = 0 := fun h => hne (List.length_eq_zero.mp h)
  have hc : ¬ (e.tfidf_matrix = none ∨ e.tfidf_matrix = some []) := by
    rw [htf]
    simp [hne]
  simp only [add_report]
  rw [if_neg hval, if_neg hlen, if_neg hc, hfm]
  have hpos : 0 < (e.report_texts ++ [pyStrip text]).length := by
    simp
  simp [create_new_cluster, rebuild_vectorizer, hpos]

/-- Match path on a fitted engine: the matched cluster is bumped, then
rebuild. -/
lemma add_report_of_some (V : Vectorizer) (e : Engine) (text : String)
    (report_time : ℚ) (cid : Nat) (hval : ¬ (text = "" ∨ pyStrip text = ""))
    (hne : e.report_texts ≠ []) (htf : e.tfidf_matrix = some e.report_texts)
    (hfm : find_matching_cluster V
      { e with
        report_texts := e.report_texts ++ [pyStrip text]
        report_times := e.report_times ++ [report_time] } (pyStrip text) = some cid) :
    add_report V e text report_time
      = ({ report_texts := e.report_texts ++ [pyStrip text]
           report_times := e.report_times ++ [report_time]
           report_cluster_map := e.report_cluster_map ++
             [(e.report_texts.length, cid)]
           clusters := bumpCluster cid e.report_texts.length e.clusters
           cluster_counter := e.cluster_counter
           similarity_threshold := e.similarity_threshold
           tfidf_matrix := some (e.report_texts ++ [pyStrip text]) },
          Except.ok e.report_texts.length) := by
  have hlen : ¬ e.report_texts.length = 0 := fun h => hne (List.length_eq_zero.mp h)
  have hc : ¬ (e.tfidf_matrix = none ∨ e.tfidf_matrix = some []) := by
    rw [htf]
    simp [hne]
  simp only [add_report]
  rw [if_neg hval, if_neg hlen, if_neg hc, hfm]
  have hpos : 0 < (e.report_texts ++ [pyStrip text]).length := by
    simp
  simp [add_to_cluster, rebuild_vectorizer, hpos]

/-! ## State invariants of reachable engines (C3, C8) -/

lemma countRange_eq (a n : Nat) :
    (List.range n).count a = if a < n then 1 else 0 := by
  by_cases h : a < n
  · rw [if_pos h]
    exact List.count_eq_one_of_mem (List.nodup_range n) (List.mem_range.mpr h)
  · rw [if_neg h]
    exact List.count_eq_zero_of_not_mem (fun hm => h (List.mem_range.mp hm))

lemma headI_append_left (l : List Nat) (x : Nat) (h : l ≠ []) :
    (l ++ [x]).headI = l.headI := by
  cases l with
  | nil => exact absurd rfl h
  | cons a t => rfl

lemma getD_append_length (l : List String) (x : String) (d : String) :
    (l ++ [x]).getD l.length d = x := by
  rw [List.getD_eq_getElem?_getD, List.getElem?_append_right (le_refl l.length)]
  simp

lemma map_if_not_mem (cid n : Nat) (l : List (Nat × Cluster))
    (h : ∀ q ∈ l, q.1 ≠ cid) :
    l.map (fun q =>
      if q.1 = cid then
        (q.1, { q.2 with count := q.2.count + 1, reports := q.2.reports ++ [n] })
      else q) = l := by
  induction l with
  | nil => rfl
  | cons a t ih =>
    rw [List.map_cons, if_neg (h a (List.mem_cons_self a t)),
      ih (fun q hq => h q (List.mem_cons_of_mem a hq))]

/-- `bumpCluster` never changes the id sequence. -/
lemma bumpCluster_map_fst (cid n : Nat) (l : List (Nat × Cluster)) :
    (bumpCluster cid n l).map Prod.fst = l.map Prod.fst := by
  unfold bumpCluster
  rw [List.map_map]
  apply List.map_congr_left
  intro p _
  by_cases h : p.1 = cid <;> simp [h]

/-- With distinct ids, `bumpCluster` rewrites exactly the named entry. -/
lemma bumpCluster_eq_of_decomp (n : Nat) (l l₁ l₂ : List (Nat × Cluster))
    (p : Nat × Cluster) (hdec : l = l₁ ++ p :: l₂)
    (hN : (l.map Prod.fst).Nodup) :
    bumpCluster p.1 n l = l₁ ++ (p.1,
      { p.2 with count := p.2.count + 1, reports := p.2.reports ++ [n] }) :: l₂ := by
  subst hdec
  rw [List.map_append, List.map_cons] at hN
  obtain ⟨h1, h2, hdisj⟩ := List.nodup_append.mp hN
  obtain ⟨hnotin, _⟩ := List.nodup_cons.mp h2
  have hl₁ : ∀ q ∈ l₁, q.1 ≠ p.1 := by
    intro q hq heq
    exact hdisj (List.mem_map_of_mem Prod.fst hq) (heq ▸ List.mem_cons_self _ _)
  have hl₂ : ∀ q ∈ l₂, q.1 ≠ p.1 := by
    intro q hq heq
    exact hnotin (heq ▸ List.mem_map_of_mem Prod.fst hq)
  unfold bumpCluster
  rw [List.map_append, List.map_cons, map_if_not_mem p.1 n l₁ hl₁,
    map_if_not_mem p.1 n l₂ hl₂, if_pos rfl]

/-- A successful match names an existing cluster id. -/
lemma find_matching_cluster_mem (V : Vectorizer) (e : Engine) (text : String)
    (cid : Nat) (h : find_matching_cluster V e text = some cid) :
    cid ∈ e.clusters.map Prod.fst := by
  unfold find_matching_cluster at h
  cases htf : e.tfidf_matrix with
  | none =>
    rw [htf] at h
    exact absurd h (by simp)
  | some C =>
    rw [htf] at h
    dsimp only at h
    split_ifs at h with h1 h2 h3
    obtain ⟨_, _, hspec⟩ := scan_foldl_spec V C text e.clusters 0 none
    rcases hspec with ⟨_, hF2⟩ | ⟨l₁, p, l₂, hdec, _, _, hF2, _, _, _⟩
    · rw [hF2] at h
      exact absurd h (by simp)
    · rw [hF2] at h
      obtain rfl : p.1 = cid := by
        simpa using h
      rw [hdec, List.map_append, List.map_cons]
      exact List.mem_append_right _ (List.mem_cons_self _ _)

/-- Invariants of every engine state reachable through `add_report`:
the member lists of the clusters partition exactly the report indices,
cluster ids grow strictly in insertion order and stay below the counter,
every cluster has its founding report first in its member list, the
representative is that founding report's text, and the matrix is fitted
on the full corpus exactly when the corpus is non-empty. -/
structure Inv (e : Engine) : Prop where
  partition : ((e.clusters.map (fun p => p.2.reports)).flatten).Perm
      (List.range e.report_texts.length)
  ids_lt : ∀ p ∈ e.clusters, p.1 < e.cluster_counter
  ids_sorted : (e.clusters.map Prod.fst).Chain' (· < ·)
  reports_ne : ∀ p ∈ e.clusters, p.2.reports ≠ []
  head_lt : ∀ p ∈ e.clusters, p.2.reports.headI < e.report_texts.length
  rep_eq : ∀ p ∈ e.clusters,
    p.2.representative = e.report_texts.getD p.2.reports.headI ""
  empty_state : e.report_texts = [] → e.clusters = [] ∧ e.tfidf_matrix = none
  built_state : e.report_texts ≠ [] → e.tfidf_matrix = some e.report_texts

/-- A fresh engine satisfies the invariants. -/
lemma mkEngine_inv (threshold : ℚ) : Inv (mkEngine threshold) := by
  refine ⟨?_, ?_, ?_, ?_, ?_, ?_, ?_, ?_⟩ <;> simp [mkEngine]

/-- `add_report` preserves the invariants. -/
lemma add_report_inv (V : Vectorizer) (e : Engine) (text : String) (report_time : ℚ)
    (hInv : Inv e) : Inv (add_report V e text report_time).1 := by
  by_cases hblank : text = "" ∨ pyStrip text = ""
  · rw [add_report_of_blank V e text report_time hblank]
    exact hInv
  by_cases hn : e.report_texts = []
  · rw [add_report_of_first V e text report_time hblank hn]
    obtain ⟨hcl, _⟩ := hInv.empty_state hn
    refine ⟨?_, ?_, ?_, ?_, ?_, ?_, ?_, ?_⟩ <;> dsimp only <;> simp [hcl]
    rfl
  have htf := hInv.built_state hn
  cases hfm : find_matching_cluster V
      { e with
        report_texts := e.report_texts ++ [pyStrip text]
        report_times := e.report_times ++ [report_time] } (pyStrip text) with
  | none =>
    rw [add_report_of_none V e text report_time hblank hn htf hfm]
    refine ⟨?_, ?_, ?_, ?_, ?_, ?_, ?_, ?_⟩
    · dsimp only
      rw [List.map_append, List.map_cons, List.map_nil, List.flatten_append,
        List.flatten_cons, List.flatten_nil, List.append_nil, List.length_append,
        List.length_singleton, List.range_succ]
      exact hInv.partition.append_right [e.report_texts.length]
    · dsimp only
      intro p hp
      rcases List.mem_append.mp hp with hp | hp
      · exact lt_trans (hInv.ids_lt p hp) (Nat.lt_succ_self _)
      · have hps := List.mem_singleton.mp hp
        subst hps
        exact Nat.lt_succ_self _
    · dsimp only
      rw [List.map_append, List.map_cons, List.map_nil]
      apply List.chain'_append.mpr
      refine ⟨hInv.ids_sorted, List.chain'_singleton _, ?_⟩
      intro x hx y hy
      have hx' : x ∈ e.clusters.map Prod.fst := List.mem_of_mem_getLast? hx
      obtain ⟨p, hp, rfl⟩ := List.mem_map.mp hx'
      have hyc : e.cluster_counter = y := by simpa using hy
      subst hyc
      exact hInv.ids_lt p hp
    · dsimp only
      intro p hp
      rcases List.mem_append.mp hp with hp | hp
      · exact hInv.reports_ne p hp
      · have hps := List.mem_singleton.mp hp
        subst hps
        simp
    · dsimp only
      intro p hp
      rw [List.length_append, List.length_singleton]
      rcases List.mem_append.mp hp with hp | hp
      · exact lt_trans (hInv.head_lt p hp) (Nat.lt_succ_self _)
      · have hps := List.mem_singleton.mp hp
        subst hps
        exact Nat.lt_succ_self _
    · dsimp only
      intro p hp
      rcases List.mem_append.mp hp with hp | hp
      · rw [List.getD_append _ _ _ _ (hInv.head_lt p hp)]
        exact hInv.rep_eq p hp
      · have hps := List.mem_singleton.mp hp
        subst hps
        exact (getD_append_length e.report_texts (pyStrip text) "").symm
    · dsimp only
      intro h
      exact absurd h (by simp)
    · intro _
      rfl
  | some cid =>
    have hmem : cid ∈ e.clusters.map Prod.fst := find_matching_cluster_mem V _ _ cid hfm
    rw [add_report_of_some V e text report_time cid hblank hn htf hfm]
    have hNfst : (e.clusters.map Prod.fst).Nodup :=
      (List.chain'_iff_pairwise.mp hInv.ids_sorted).imp (fun h => ne_of_lt h)
    obtain ⟨pc, hpc, hfst⟩ := List.mem_map.mp hmem
    obtain ⟨l₁, l₂, hdec⟩ := List.append_of_mem hpc
    have hbump : bumpCluster cid e.report_texts.length e.clusters
        = l₁ ++ (pc.1, { pc.2 with
            count := pc.2.count + 1
            reports := pc.2.reports ++ [e.report_texts.length] }) :: l₂ := by
      rw [← hfst]
      exact bumpCluster_eq_of_decomp e.report_texts.length e.clusters l₁ l₂ pc hdec hNfst
    have hsub1 : ∀ q ∈ l₁, q ∈ e.clusters := fun q hq => by
      rw [hdec]
      exact List.mem_append_left _ hq
    have hsub2 : ∀ q ∈ l₂, q ∈ e.clusters := fun q hq => by
      rw [hdec]
      exact List.mem_append_right _ (List.mem_cons_of_mem _ hq)
    have hRne := hInv.reports_ne pc hpc
    refine ⟨?_, ?_, ?_, ?_, ?_, ?_, ?_, ?_⟩
    · dsimp only
      rw [hbump, List.map_append, List.map_cons, List.flatten_append, List.flatten_cons]
      rw [List.perm_iff_count]
      intro a
      have hold := hInv.partition.count_eq a
      rw [hdec, List.map_append, List.map_cons, List.flatten_append,
        List.flatten_cons] at hold
      have hcnt : List.count a [e.report_texts.length]
          = if a = e.report_texts.length then 1 else 0 := by
        by_cases ha : a = e.report_texts.length
        · subst ha
          simp
        · rw [if_neg ha, List.count_singleton]
          simp [Ne.symm ha]
      simp only [List.count_append, countRange_eq, List.length_append,
        List.length_singleton] at hold ⊢
      rw [hcnt]
      split_ifs at hold ⊢ <;> omega
    · dsimp only
      intro p hp
      rw [hbump] at hp
      rcases List.mem_append.mp hp with hp | hp
      · exact hInv.ids_lt p (hsub1 p hp)
      · rcases List.mem_cons.mp hp with hps | hp
        · subst hps
          exact hInv.ids_lt pc hpc
        · exact hInv.ids_lt p (hsub2 p hp)
    · dsimp only
      rw [bumpCluster_map_fst]
      exact hInv.ids_sorted
    · dsimp only
      intro p hp
      rw [hbump] at hp
      rcases List.mem_append.mp hp with hp | hp
      · exact hInv.reports_ne p (hsub1 p hp)
      · rcases List.mem_cons.mp hp with hps | hp
        · subst hps
          simp
        · exact hInv.reports_ne p (hsub2 p hp)
    · dsimp only
      intro p hp
      rw [List.length_append, List.length_singleton]
      rw [hbump] at hp
      rcases List.mem_append.mp hp with hp | hp
      · exact lt_trans (hInv.head_lt p (hsub1 p hp)) (Nat.lt_succ_self _)
      · rcases List.mem_cons.mp hp with hps | hp
        · subst hps
          show ((pc.2.reports ++ [e.report_texts.length]).headI) < _
          rw [headI_append_left _ _ hRne]
          exact lt_trans (hInv.head_lt pc hpc) (Nat.lt_succ_self _)
        · exact lt_trans (hInv.head_lt p (hsub2 p hp)) (Nat.lt_succ_self _)
    · dsimp only
      intro p hp
      rw [hbump] at hp
      rcases List.mem_append.mp hp with hp | hp
      · rw [List.getD_append _ _ _ _ (hInv.head_lt p (hsub1 p hp))]
        exact hInv.rep_eq p (hsub1 p hp)
      · rcases List.mem_cons.mp hp with hps | hp
        · subst hps
          show pc.2.representative = _
          rw [show ((pc.2.reports ++ [e.report_texts.length]).headI)
              = pc.2.reports.headI from headI_append_left _ _ hRne]
          rw [List.getD_append _ _ _ _ (hInv.head_lt pc hpc)]
          exact hInv.rep_eq pc hpc
        · rw [List.getD_append _ _ _ _ (hInv.head_lt p (hsub2 p hp))]
          exact hInv.rep_eq p (hsub2 p hp)
    · dsimp only
      intro h
      exact absurd h (by simp)
    · intro _
      rfl

/-- Replaying any input sequence preserves the invariants. -/
lemma runAdds_inv (V : Vectorizer) (e : Engine) (inputs : List (String × ℚ))
    (hInv : Inv e) : Inv (runAdds V e inputs) := by
  induction inputs generalizing e with
  | nil => exact hInv
  | cons p t ih => exact ih _ (add_report_inv V e p.1 p.2 hInv)

/-! ## C3: partition invariant -/

lemma count_le_count_flatten (l : List (Nat × Cluster)) (i : Nat)
    (q : Nat × Cluster) (hq : q ∈ l) :
    (q.2.reports).count i ≤ ((l.map (fun p => p.2.reports)).flatten).count i := by
  rw [List.count_flatten, List.map_map]
  exact List.single_le_sum (fun x _ => Nat.zero_le x) _ (List.mem_map_of_mem _ hq)

lemma two_le_count_flatten (l : List (Nat × Cluster)) (i : Nat)
    (p q : Nat × Cluster) (hp : p ∈ l) (hq : q ∈ l) (hne : p ≠ q)
    (hip : i ∈ p.2.reports) (hiq : i ∈ q.2.reports) :
    2 ≤ ((l.map (fun p => p.2.reports)).flatten).count i := by
  obtain ⟨s, t, rfl⟩ := List.append_of_mem hp
  have hq' : q ∈ s ∨ q ∈ t := by
    rcases List.mem_append.mp hq with h | h
    · exact Or.inl h
    · rcases List.mem_cons.mp h with h | h
      · exact (hne h.symm).elim
      · exact Or.inr h
  rw [List.map_append, List.map_cons, List.flatten_append, List.flatten_cons,
    List.count_append, List.count_append]
  have hp1 : 1 ≤ p.2.reports.count i := List.count_pos_iff.mpr hip
  have hq1 : 1 ≤ q.2.reports.count i := List.count_pos_iff.mpr hiq
  rcases hq' with h | h
  · have hle := count_le_count_flatten s i q h
    omega
  · have hle := count_le_count_flatten t i q h
    omega

/-- Claim C3: after any sequence of `add_report` calls on a fresh engine,
every inserted report index belongs to the member list of exactly one
cluster. -/
theorem partition_invariant (V : Vectorizer) (threshold : ℚ)
    (inputs : List (String × ℚ)) (i : Nat)
    (hi : i < (runAdds V (mkEngine threshold) inputs).report_texts.length) :
    ∃! p : Nat × Cluster,
      p ∈ (runAdds V (mkEngine threshold) inputs).clusters ∧ i ∈ p.2.reports := by
  have hInv : Inv (runAdds V (mkEngine threshold) inputs) :=
    runAdds_inv V (mkEngine threshold) inputs (mkEngine_inv threshold)
  have hcount : (((runAdds V (mkEngine threshold) inputs).clusters.map
      (fun p => p.2.reports)).flatten).count i = 1 := by
    rw [hInv.partition.count_eq i, countRange_eq, if_pos hi]
  have hmem : i ∈ ((runAdds V (mkEngine threshold) inputs).clusters.map
      (fun p => p.2.reports)).flatten := List.count_pos_iff.mp (by omega)
  obtain ⟨l, hl, hil⟩ := List.mem_flatten.mp hmem
  obtain ⟨p, hp, rfl⟩ := List.mem_map.mp hl
  refine ⟨p, ⟨hp, hil⟩, ?_⟩
  rintro q ⟨hq, hiq⟩
  by_contra hne
  have h2 := two_le_count_flatten _ i q p hq hp hne hiq hil
  omega

/-- Witness for C3 on a concrete two-report run. -/
theorem partition_invariant_witness :
    ∃! p : Nat × Cluster,
      p ∈ (runAdds Vtest (mkEngine 1) [("aaa", 0), ("bbb", 0)]).clusters ∧
        1 ∈ p.2.reports :=
  partition_invariant Vtest 1 [("aaa", 0), ("bbb", 0)] 1 (by decide)

/-! ## C8: representative stability -/

/-- A lookup hit names a member pair of the cluster list. -/
lemma lookupCluster_mem {e : Engine} {cid : Nat} {c : Cluster}
    (h : lookupCluster e cid = some c) : ∃ p ∈ e.clusters, p.2 = c := by
  unfold lookupCluster at h
  cases hf : e.clusters.find? (fun p => p.1 == cid) with
  | none => rw [hf] at h; exact absurd h (by simp)
  | some p =>
    rw [hf] at h
    exact ⟨p, List.mem_of_find?_eq_some hf, by simpa using h⟩

/-- One `add_report` call never changes the representative or the founding
report of an existing cluster. -/
lemma add_report_lookup_stable (V : Vectorizer) (e : Engine) (text : String)
    (report_time : ℚ) (cid : Nat) (c : Cluster) (hInv : Inv e)
    (h : lookupCluster e cid = some c) :
    ∃ c', lookupCluster (add_report V e text report_time).1 cid = some c' ∧
      c'.representative = c.representative ∧
      c'.reports.headI = c.reports.headI := by
  by_cases hblank : text = "" ∨ pyStrip text = ""
  · rw [add_report_of_blank V e text report_time hblank]
    exact ⟨c, h, rfl, rfl⟩
  by_cases hn : e.report_texts = []
  · obtain ⟨hcl, _⟩ := hInv.empty_state hn
    rw [lookupCluster, hcl] at h
    exact absurd h (by simp)
  have htf := hInv.built_state hn
  cases hfm : find_matching_cluster V
      { e with
        report_texts := e.report_texts ++ [pyStrip text]
        report_times := e.report_times ++ [report_time] } (pyStrip text) with
  | none =>
    rw [add_report_of_none V e text report_time hblank hn htf hfm]
    refine ⟨c, ?_, rfl, rfl⟩
    unfold lookupCluster at h ⊢
    dsimp only
    rw [List.find?_append]
    cases hf : e.clusters.find? (fun p => p.1 == cid) with
    | none => rw [hf] at h; exact absurd h (by simp)
    | some p =>
      rw [hf] at h
      exact h
  | some cid' =>
    rw [add_report_of_some V e text report_time cid' hblank hn htf hfm]
    unfold lookupCluster at h ⊢
    dsimp only
    cases hf : e.clusters.find? (fun p => p.1 == cid) with
    | none => rw [hf] at h; exact absurd h (by simp)
    | some p =>
      rw [hf] at h
      have hpc : p.2 = c := by simpa using h
      have hpmem : p ∈ e.clusters := List.mem_of_find?_eq_some hf
      have hfind : (bumpCluster cid' e.report_texts.length e.clusters).find?
          (fun q => q.1 == cid)
          = some (if p.1 = cid' then
              (p.1, { p.2 with
                count := p.2.count + 1
                reports := p.2.reports ++ [e.report_texts.length] })
            else p) := by
        unfold bumpCluster
        rw [List.find?_map]
        have hpred : ((fun q : Nat × Cluster => q.1 == cid) ∘ (fun q =>
            if q.1 = cid' then
              (q.1, { q.2 with
                count := q.2.count + 1
                reports := q.2.reports ++ [e.report_texts.length] })
            else q)) = fun q : Nat × Cluster => q.1 == cid := by
          funext q
          by_cases hq : q.1 = cid' <;> simp [hq]
        rw [hpred, hf]
        by_cases hq : p.1 = cid' <;> simp [hq]
      rw [hfind]
      by_cases hq : p.1 = cid'
      · rw [if_pos hq]
        refine ⟨_, rfl, ?_, ?_⟩
        · rw [← hpc]
        · show (p.2.reports ++ [e.report_texts.length]).headI = c.reports.headI
          rw [headI_append_left _ _ (hInv.reports_ne p hpmem), hpc]
      · rw [if_neg hq]
        exact ⟨p.2, rfl, by rw [hpc], by rw [hpc]⟩

/-- Claim C8: for every cluster and every sequence of later `add_report`
calls, the cluster's representative stays the text of its founding (first)
report: it is unchanged by the run and still equals the final corpus entry
at the cluster's first member index, which is itself unchanged. -/
theorem representative_stable (V : Vectorizer) (e : Engine)
    (inputs : List (String × ℚ)) (cid : Nat) (c : Cluster) (hInv : Inv e)
    (h : lookupCluster e cid = some c) :
    ∃ c', lookupCluster (runAdds V e inputs) cid = some c' ∧
      c'.representative = c.representative ∧
      c'.representative
        = (runAdds V e inputs).report_texts.getD c'.reports.headI "" ∧
      c'.reports.headI = c.reports.headI := by
  induction inputs generalizing e c with
  | nil =>
    refine ⟨c, h, rfl, ?_, rfl⟩
    obtain ⟨p, hp, rfl⟩ := lookupCluster_mem h
    exact hInv.rep_eq p hp
  | cons q t ih =>
    obtain ⟨c', h', hrep, hhead⟩ :=
      add_report_lookup_stable V e q.1 q.2 cid c hInv h
    obtain ⟨c'', h'', hrep', hfound, hhead'⟩ :=
      ih (add_report V e q.1 q.2).1 c' (add_report_inv V e q.1 q.2 hInv) h'
    exact ⟨c'', h'', hrep'.trans hrep, hfound, hhead'.trans hhead⟩

/-- Witness for C8: the first cluster of a two-insertion run keeps its
representative across two further insertions. -/
theorem representative_stable_witness :
    ∃ c', lookupCluster (runAdds Vtest (runAdds Vtest (mkEngine 1) [("aaa", 0)])
        [("bbb", 0), ("ccc", 0)]) 0 = some c' ∧
      c'.representative = "aaa" ∧
      c'.representative = (runAdds Vtest (runAdds Vtest (mkEngine 1) [("aaa", 0)])
        [("bbb", 0), ("ccc", 0)]).report_texts.getD c'.reports.headI "" ∧
      c'.reports.headI = 0 :=
  representative_stable Vtest (runAdds Vtest (mkEngine 1) [("aaa", 0)])
    [("bbb", 0), ("ccc", 0)] 0 { representative := "aaa", count := 1, reports := [0] }
    (runAdds_inv Vtest (mkEngine 1) [("aaa", 0)] (mkEngine_inv 1)) rfl

/-! ## C7: find_similar_reports -/

/-- Claim C7: `find_similar_reports` compares the query against every stored
report, keeps only those with similarity ≥ threshold, and returns at most
`top_k` pairs in descending similarity order; with no reports it returns the
empty sequence.  The hypothesis is the matrix/corpus invariant of every
reachable state. -/
theorem find_similar_reports_spec (V : Vectorizer) (e : Engine) (text : String)
    (top_k : Nat)
    (htf : e.tfidf_matrix = some e.report_texts ∨
      (e.report_texts = [] ∧ e.tfidf_matrix = none)) :
    (e.report_texts = [] → find_similar_reports V e text top_k = []) ∧
      (find_similar_reports V e text top_k).length ≤ top_k ∧
      (∀ r ∈ find_similar_reports V e text top_k,
        e.similarity_threshold ≤ r.2 ∧
        ∃ i, i < e.report_texts.length ∧ r.1 = e.report_texts.getD i "" ∧
          r.2 = simTo V e.report_texts text i) ∧
      (find_similar_reports V e text top_k).Pairwise (fun a b => b.2 ≤ a.2) ∧
      ((find_similar_reports V e text top_k).length < top_k →
        ∀ i, i < e.report_texts.length →
          e.similarity_threshold ≤ simTo V e.report_texts text i →
          (e.report_texts.getD i "", simTo V e.report_texts text i)
            ∈ find_similar_reports V e text top_k) := by
  by_cases hn : e.report_texts = []
  · have hres : find_similar_reports V e text top_k = [] := by
      unfold find_similar_reports
      rw [if_pos (Or.inl hn)]
    rw [hres]
    refine ⟨fun _ => rfl, by simp, by simp, by simp, ?_⟩
    intro _ i hi
    rw [hn] at hi
    exact absurd hi (by simp)
  rcases htf with htf | ⟨hn', _⟩
  swap
  · exact absurd hn' hn
  have hcond : ¬ (e.report_texts = [] ∨ e.tfidf_matrix = none) := by
    simp [hn, htf]
  have hres : find_similar_reports V e text top_k
      = ((((List.range e.report_texts.length).mergeSort
            (argsortKey V e.report_texts text)).take top_k).filter
          (fun i => decide (e.similarity_threshold ≤ simTo V e.report_texts text i))).map
        (fun i => (e.report_texts.getD i "", simTo V e.report_texts text i)) := by
    unfold find_similar_reports
    rw [if_neg hcond, htf]
    rfl
  have htrans : ∀ a b c : Nat, argsortKey V e.report_texts text a b = true →
      argsortKey V e.report_texts text b c = true →
      argsortKey V e.report_texts text a c = true := by
    intro a b c hab hbc
    simp only [argsortKey, decide_eq_true_eq] at hab hbc ⊢
    rcases hab with h1 | ⟨h1, h1'⟩ <;> rcases hbc with h2 | ⟨h2, h2'⟩
    · exact Or.inl (lt_trans h2 h1)
    · exact Or.inl (by rw [h2]; exact h1)
    · exact Or.inl (lt_of_lt_of_le h2 h1.le)
    · exact Or.inr ⟨h2.trans h1, le_trans h1' h2'⟩
  have htotal : ∀ a b : Nat, (argsortKey V e.report_texts text a b ||
      argsortKey V e.report_texts text b a) = true := by
    intro a b
    simp only [argsortKey, Bool.or_eq_true, decide_eq_true_eq]
    rcases lt_trichotomy (simTo V e.report_texts text a)
        (simTo V e.report_texts text b) with h | h | h
    · exact Or.inr (Or.inl h)
    · rcases le_total a b with hab | hab
      · exact Or.inl (Or.inr ⟨h.symm, hab⟩)
      · exact Or.inr (Or.inr ⟨h, hab⟩)
    · exact Or.inl (Or.inl h)
  have hkey_le : ∀ a b : Nat, argsortKey V e.report_texts text a b = true →
      simTo V e.report_texts text b ≤ simTo V e.report_texts text a := by
    intro a b h
    simp only [argsortKey, decide_eq_true_eq] at h
    rcases h with h | ⟨h, _⟩
    · exact h.le
    · exact h.le
  have hsorted := List.sorted_mergeSort htrans htotal
    (List.range e.report_texts.length)
  have hperm := List.mergeSort_perm (List.range e.report_texts.length)
    (argsortKey V e.report_texts text)
  rw [hres]
  set S := (List.range e.report_texts.length).mergeSort
    (argsortKey V e.report_texts text) with hSdef
  set T := S.take top_k with hTdef
  set F := T.filter
    (fun i => decide (e.similarity_threshold ≤ simTo V e.report_texts text i)) with hFdef
  have hmemS : ∀ i, i ∈ S ↔ i < e.report_texts.length := by
    intro i
    rw [hperm.mem_iff, List.mem_range]
  refine ⟨fun h => absurd h hn, ?_, ?_, ?_, ?_⟩
  · rw [List.length_map]
    calc F.length ≤ T.length := List.length_filter_le _ _
      _ ≤ top_k := by
          rw [hTdef, List.length_take]
          exact min_le_left _ _
  · intro r hr
    obtain ⟨i, hiF, rfl⟩ := List.mem_map.mp hr
    have hiT : i ∈ T := (List.mem_filter.mp hiF).1
    have hθ : e.similarity_threshold ≤ simTo V e.report_texts text i :=
      of_decide_eq_true (List.mem_filter.mp hiF).2
    have hiS : i ∈ S := List.take_subset _ _ hiT
    exact ⟨hθ, i, (hmemS i).mp hiS, rfl, rfl⟩
  · have hPT : T.Pairwise (fun a b => argsortKey V e.report_texts text a b = true) :=
      List.Pairwise.sublist (List.take_sublist top_k S) hsorted
    have hPF : F.Pairwise (fun a b => argsortKey V e.report_texts text a b = true) :=
      List.Pairwise.sublist (List.filter_sublist T) hPT
    exact List.Pairwise.map _ (fun a b hab => hkey_le a b hab) hPF
  · intro hlen i hi hθi
    rw [List.length_map] at hlen
    have hiS : i ∈ S := (hmemS i).mpr hi
    have hiT : i ∈ T := by
      by_cases hSk : S.length ≤ top_k
      · have hTS : T = S := by
          rw [hTdef]
          exact List.take_of_length_le hSk
        rw [hTS]
        exact hiS
      · push_neg at hSk
        have hTlen : T.length = top_k := by
          rw [hTdef, List.length_take]
          exact Nat.min_eq_left hSk.le
        have hFlt : F.length < T.length := by
          rw [hTlen]
          exact hlen
        have hex : ∃ j ∈ T,
            ¬ (decide (e.similarity_threshold ≤ simTo V e.report_texts text j) = true) := by
          by_contra hall
          push_neg at hall
          have hFT : F = T := by
            rw [hFdef]
            exact List.filter_eq_self.mpr hall
          rw [hFT] at hFlt
          exact lt_irrefl _ hFlt
        obtain ⟨j, hjT, hjθ⟩ := hex
        have hjθ' : simTo V e.report_texts text j < e.similarity_threshold := by
          simp only [decide_eq_true_eq] at hjθ
          exact not_le.mp hjθ
        by_contra hiT
        have hidrop : i ∈ S.drop top_k := by
          have hsplit := List.take_append_drop top_k S
          have hiS' : i ∈ S.take top_k ++ S.drop top_k := by
            rw [hsplit]
            exact hiS
          rcases List.mem_append.mp hiS' with h | h
          · exact absurd h hiT
          · exact h
        have hPsplit : (S.take top_k ++ S.drop top_k).Pairwise
            (fun a b => argsortKey V e.report_texts text a b = true) := by
          rw [List.take_append_drop]
          exact hsorted
        have hji : argsortKey V e.report_texts text j i = true :=
          (List.pairwise_append.mp hPsplit).2.2 j hjT i hidrop
        have hle := hkey_le _ _ hji
        linarith
    have hiF : i ∈ F := List.mem_filter.mpr ⟨hiT, by
      rw [decide_eq_true_eq]
      exact hθi⟩
    exact List.mem_map.mpr ⟨i, hiF, rfl⟩

/-- Vectorizer giving three distinct similarities to the three stored
reports. -/
def VC7 : Vectorizer :=
  { sim := fun _ _ b =>
      if b = "aaa" then mkRat 9 10 else if b = "bbb" then mkRat 7 10 else mkRat 1 10
    transformOk := fun _ _ => true }

/-- Three-report engine with threshold 1/2 for the C7 witness. -/
def threeReportEngine : Engine :=
  { report_texts := ["aaa", "bbb", "ccc"]
    report_times := [0, 0, 0]
    report_cluster_map := [(0, 0), (1, 0), (2, 0)]
    clusters := [(0, { representative := "aaa", count := 3, reports := [0, 1, 2] })]
    cluster_counter := 1
    similarity_threshold := mkRat 1 2
    tfidf_matrix := some ["aaa", "bbb", "ccc"] }

/-- Witness for C7 on a concrete three-report engine. -/
theorem find_similar_reports_spec_witness :
    (threeReportEngine.report_texts = [] →
        find_similar_reports VC7 threeReportEngine "q" 2 = []) ∧
      (find_similar_reports VC7 threeReportEngine "q" 2).length ≤ 2 ∧
      (∀ r ∈ find_similar_reports VC7 threeReportEngine "q" 2,
        threeReportEngine.similarity_threshold ≤ r.2 ∧
        ∃ i, i < threeReportEngine.report_texts.length ∧
          r.1 = threeReportEngine.report_texts.getD i "" ∧
          r.2 = simTo VC7 threeReportEngine.report_texts "q" i) ∧
      (find_similar_reports VC7 threeReportEngine "q" 2).Pairwise
        (fun a b => b.2 ≤ a.2) ∧
      ((find_similar_reports VC7 threeReportEngine "q" 2).length < 2 →
        ∀ i, i < threeReportEngine.report_texts.length →
          threeReportEngine.similarity_threshold
            ≤ simTo VC7 threeReportEngine.report_texts "q" i →
          (threeReportEngine.report_texts.getD i "",
            simTo VC7 threeReportEngine.report_texts "q" i)
            ∈ find_similar_reports VC7 threeReportEngine "q" 2) :=
  find_similar_reports_spec VC7 threeReportEngine "q" 2 (Or.inl rfl)

/-! ## C9: behaviour of the clustering under a raised threshold -/

/-- Two engine states that agree on everything except the similarity
threshold (the situation of two runs replaying the same inputs under
different thresholds, before they diverge). -/
structure EqButTheta (x y : Engine) : Prop where
  texts : x.report_texts = y.report_texts
  times : x.report_times = y.report_times
  map : x.report_cluster_map = y.report_cluster_map
  clusters : x.clusters = y.clusters
  counter : x.cluster_counter = y.cluster_counter
  tfidf : x.tfidf_matrix = y.tfidf_matrix

/-- The scan of `_find_matching_cluster` does not read the threshold, which
only gates the final comparison: on threshold-only-different states the two
calls agree unless the higher-threshold call rejects the best match. -/
lemma find_matching_theta_mono (V : Vectorizer) (x y : Engine) (text : String)
    (hEq : EqButTheta x y)
    (hθ : x.similarity_threshold ≤ y.similarity_threshold) :
    find_matching_cluster V x text = find_matching_cluster V y text ∨
      find_matching_cluster V y text = none := by
  unfold find_matching_cluster
  rw [hEq.tfidf, hEq.clusters]
  cases y.tfidf_matrix with
  | none => exact Or.inl rfl
  | some C =>
    dsimp only
    split_ifs with h1 h2 h3 h4 h5 <;>
      first
        | exact Or.inl rfl
        | exact Or.inr rfl
        | exact absurd (le_trans hθ h4) h3
        | exact absurd (le_trans hθ h5) h3

/-- The threshold field itself survives every `add_report` path. -/
lemma add_report_theta (V : Vectorizer) (e : Engine) (text : String) (time : ℚ)
    (hInv : Inv e) :
    (add_report V e text time).1.similarity_threshold = e.similarity_threshold := by
  by_cases hblank : text = "" ∨ pyStrip text = ""
  · rw [add_report_of_blank V e text time hblank]
  by_cases hn : e.report_texts = []
  · rw [add_report_of_first V e text time hblank hn]
  have htf := hInv.built_state hn
  cases hfm : find_matching_cluster V
      { e with
        report_texts := e.report_texts ++ [pyStrip text]
        report_times := e.report_times ++ [time] } (pyStrip text) with
  | none => rw [add_report_of_none V e text time hblank hn htf hfm]
  | some cid => rw [add_report_of_some V e text time cid hblank hn htf hfm]

/-- One `add_report` call changes the number of clusters by zero or one. -/
lemma add_report_clusters_length (V : Vectorizer) (e : Engine) (text : String)
    (time : ℚ) (hInv : Inv e) :
    e.clusters.length ≤ (add_report V e text time).1.clusters.length ∧
      (add_report V e text time).1.clusters.length ≤ e.clusters.length + 1 := by
  by_cases hblank : text = "" ∨ pyStrip text = ""
  · rw [add_report_of_blank V e text time hblank]
    dsimp only
    omega
  by_cases hn : e.report_texts = []
  · rw [add_report_of_first V e text time hblank hn]
    dsimp only
    simp only [List.length_append, List.length_singleton]
    omega
  have htf := hInv.built_state hn
  cases hfm : find_matching_cluster V
      { e with
        report_texts := e.report_texts ++ [pyStrip text]
        report_times := e.report_times ++ [time] } (pyStrip text) with
  | none =>
    rw [add_report_of_none V e text time hblank hn htf hfm]
    dsimp only
    simp only [List.length_append, List.length_singleton]
    omega
  | some cid =>
    rw [add_report_of_some V e text time cid hblank hn htf hfm]
    dsimp only
    unfold bumpCluster
    rw [List.length_map]
    omega

/-- The first `add_report` on a fresh engine is threshold-independent. -/
lemma add_report_fresh_theta (V : Vectorizer) (t₁ t₂ : ℚ) (text : String)
    (time : ℚ) :
    EqButTheta (add_report V (mkEngine t₁) text time).1
      (add_report V (mkEngine t₂) text time).1 := by
  by_cases hblank : text = "" ∨ pyStrip text = ""
  · rw [add_report_of_blank V _ text time hblank,
      add_report_of_blank V _ text time hblank]
    exact ⟨rfl, rfl, rfl, rfl, rfl, rfl⟩
  · rw [add_report_of_first V _ text time hblank rfl,
      add_report_of_first V _ text time hblank rfl]
    exact ⟨rfl, rfl, rfl, rfl, rfl, rfl⟩

/-- Coupled step: replaying the same report on threshold-only-different
states either keeps the states threshold-only-different, or the
higher-threshold run opens a new cluster exactly where the lower-threshold
run merged, leaving it one cluster ahead. -/
lemma add_report_theta_step (V : Vectorizer) (x y : Engine) (text : String)
    (time : ℚ) (hIx : Inv x) (hIy : Inv y) (hEq : EqButTheta x y)
    (hθ : x.similarity_threshold ≤ y.similarity_threshold) :
    EqButTheta (add_report V x text time).1 (add_report V y text time).1 ∨
      (add_report V x text time).1.clusters.length + 1
        = (add_report V y text time).1.clusters.length := by
  by_cases hblank : text = "" ∨ pyStrip text = ""
  · rw [add_report_of_blank V x text time hblank,
      add_report_of_blank V y text time hblank]
    exact Or.inl hEq
  by_cases hn : x.report_texts = []
  · have hny : y.report_texts = [] := by rw [← hEq.texts]; exact hn
    rw [add_report_of_first V x text time hblank hn,
      add_report_of_first V y text time hblank hny]
    exact Or.inl ⟨rfl, by rw [hEq.times], by rw [hEq.map, hEq.counter],
      by rw [hEq.clusters, hEq.counter], by rw [hEq.counter], rfl⟩
  have hny : y.report_texts ≠ [] := by rw [← hEq.texts]; exact hn
  have htfx := hIx.built_state hn
  have htfy := hIy.built_state hny
  have hEq1 : EqButTheta
      { x with
        report_texts := x.report_texts ++ [pyStrip text]
        report_times := x.report_times ++ [time] }
      { y with
        report_texts := y.report_texts ++ [pyStrip text]
        report_times := y.report_times ++ [time] } :=
    ⟨by dsimp only; rw [hEq.texts], by dsimp only; rw [hEq.times], hEq.map,
      hEq.clusters, hEq.counter, hEq.tfidf⟩
  have hlenxy : x.report_texts.length = y.report_texts.length := by
    rw [hEq.texts]
  rcases find_matching_theta_mono V _ _ (pyStrip text) hEq1 hθ with heq | hnone
  · cases hfm : find_matching_cluster V
        { y with
          report_texts := y.report_texts ++ [pyStrip text]
          report_times := y.report_times ++ [time] } (pyStrip text) with
    | none =>
      have hfmx := heq.trans hfm
      rw [add_report_of_none V x text time hblank hn htfx hfmx,
        add_report_of_none V y text time hblank hny htfy hfm]
      exact Or.inl ⟨by dsimp only; rw [hEq.texts], by dsimp only; rw [hEq.times],
        by dsimp only; rw [hEq.map, hEq.counter, hlenxy],
        by dsimp only; rw [hEq.clusters, hEq.counter, hlenxy],
        by dsimp only; rw [hEq.counter], by dsimp only; rw [hEq.texts]⟩
    | some cid =>
      have hfmx := heq.trans hfm
      rw [add_report_of_some V x text time cid hblank hn htfx hfmx,
        add_report_of_some V y text time cid hblank hny htfy hfm]
      exact Or.inl ⟨by dsimp only; rw [hEq.texts], by dsimp only; rw [hEq.times],
        by dsimp only; rw [hEq.map, hlenxy],
        by dsimp only; rw [hEq.clusters, hlenxy],
        by dsimp only; rw [hEq.counter], by dsimp only; rw [hEq.texts]⟩
  · cases hfmx : find_matching_cluster V
        { x with
          report_texts := x.report_texts ++ [pyStrip text]
          report_times := x.report_times ++ [time] } (pyStrip text) with
    | none =>
      rw [add_report_of_none V x text time hblank hn htfx hfmx,
        add_report_of_none V y text time hblank hny htfy hnone]
      exact Or.inl ⟨by dsimp only; rw [hEq.texts], by dsimp only; rw [hEq.times],
        by dsimp only; rw [hEq.map, hEq.counter, hlenxy],
        by dsimp only; rw [hEq.clusters, hEq.counter, hlenxy],
        by dsimp only; rw [hEq.counter], by dsimp only; rw [hEq.texts]⟩
    | some cid =>
      rw [add_report_of_some V x text time cid hblank hn htfx hfmx,
        add_report_of_none V y text time hblank hny htfy hnone]
      right
      dsimp only
      unfold bumpCluster
      rw [List.length_map, List.length_append, hEq.clusters]
      rfl

/-- Vectorizer for the C9 counterexample: "r" resembles "q" at 1/2, and
"x1", "x2" resemble "r" at 9/10 while being orthogonal to everything else —
a similarity pattern realizable by TF-IDF cosine (shared tokens between r
and q; x1, x2 near-duplicates of r with no token of q). -/
def VC9 : Vectorizer :=
  { sim := fun _ a b =>
      if a = "r" ∧ b = "q" then mkRat 1 2
      else if a = "x1" ∧ b = "r" then mkRat 9 10
      else if a = "x2" ∧ b = "r" then mkRat 9 10
      else 0
    transformOk := fun _ _ => true }

/-- Input sequence of the C9 counterexample. -/
def c9inputs : List (String × ℚ) := [("q", 0), ("r", 0), ("x1", 0), ("x2", 0)]

/-- Claim C9, counterexample: on the four-report sequence q, r, x1, x2 the
run with threshold 2/5 merges r into q's cluster, so x1 and x2 find no
matching representative and open clusters of their own (3 clusters), while
the run with the higher threshold 4/5 keeps r as its own representative and
x1, x2 merge into it (2 clusters): raising the threshold decreased the
final cluster count. -/
theorem threshold_monotonicity_cex :
    (mkRat 2 5 : ℚ) ≤ mkRat 4 5 ∧
      (runAdds VC9 (mkEngine (mkRat 2 5)) c9inputs).clusters.length = 3 ∧
      (runAdds VC9 (mkEngine (mkRat 4 5)) c9inputs).clusters.length = 2 :=
  ⟨by decide, by decide, by decide⟩

/-- Claim C9 (amended): for every fixed sequence of at most three
(text, timestamp) inputs and thresholds t₁ ≤ t₂, replaying the sequence
with threshold t₂ yields at least as many final clusters as with t₁; from
four reports on, raising the threshold can strictly decrease the count. -/
theorem threshold_monotone_upto_three (V : Vectorizer) (t₁ t₂ : ℚ)
    (inputs : List (String × ℚ)) (hθ : t₁ ≤ t₂) (hlen : inputs.length ≤ 3) :
    (runAdds V (mkEngine t₁) inputs).clusters.length
      ≤ (runAdds V (mkEngine t₂) inputs).clusters.length := by
  rcases inputs with _ | ⟨a, _ | ⟨b, _ | ⟨c, _ | ⟨d, rest⟩⟩⟩⟩
  · exact le_refl _
  · simp only [runAdds, List.foldl_cons, List.foldl_nil]
    exact le_of_eq (congrArg List.length (add_report_fresh_theta V t₁ t₂ a.1 a.2).clusters)
  · simp only [runAdds, List.foldl_cons, List.foldl_nil]
    have hIx1 : Inv (add_report V (mkEngine t₁) a.1 a.2).1 :=
      add_report_inv V _ a.1 a.2 (mkEngine_inv t₁)
    have hIy1 : Inv (add_report V (mkEngine t₂) a.1 a.2).1 :=
      add_report_inv V _ a.1 a.2 (mkEngine_inv t₂)
    have hθ1 : (add_report V (mkEngine t₁) a.1 a.2).1.similarity_threshold
        ≤ (add_report V (mkEngine t₂) a.1 a.2).1.similarity_threshold := by
      rw [add_report_theta V _ a.1 a.2 (mkEngine_inv t₁),
        add_report_theta V _ a.1 a.2 (mkEngine_inv t₂)]
      exact hθ
    rcases add_report_theta_step V _ _ b.1 b.2 hIx1 hIy1
        (add_report_fresh_theta V t₁ t₂ a.1 a.2) hθ1 with hEq2 | hdiv2
    · exact le_of_eq (congrArg List.length hEq2.clusters)
    · omega
  · simp only [runAdds, List.foldl_cons, List.foldl_nil]
    have hIx1 : Inv (add_report V (mkEngine t₁) a.1 a.2).1 :=
      add_report_inv V _ a.1 a.2 (mkEngine_inv t₁)
    have hIy1 : Inv (add_report V (mkEngine t₂) a.1 a.2).1 :=
      add_report_inv V _ a.1 a.2 (mkEngine_inv t₂)
    have hθ1 : (add_report V (mkEngine t₁) a.1 a.2).1.similarity_threshold
        ≤ (add_report V (mkEngine t₂) a.1 a.2).1.similarity_threshold := by
      rw [add_report_theta V _ a.1 a.2 (mkEngine_inv t₁),
        add_report_theta V _ a.1 a.2 (mkEngine_inv t₂)]
      exact hθ
    have hIx2 : Inv (add_report V (add_report V (mkEngine t₁) a.1 a.2).1 b.1 b.2).1 :=
      add_report_inv V _ b.1 b.2 hIx1
    have hIy2 : Inv (add_report V (add_report V (mkEngine t₂) a.1 a.2).1 b.1 b.2).1 :=
      add_report_inv V _ b.1 b.2 hIy1
    rcases add_report_theta_step V _ _ b.1 b.2 hIx1 hIy1
        (add_report_fresh_theta V t₁ t₂ a.1 a.2) hθ1 with hEq2 | hdiv2
    · have hθ2 : (add_report V (add_report V (mkEngine t₁) a.1 a.2).1 b.1
            b.2).1.similarity_threshold
          ≤ (add_report V (add_report V (mkEngine t₂) a.1 a.2).1 b.1
            b.2).1.similarity_threshold := by
        rw [add_report_theta V _ b.1 b.2 hIx1, add_report_theta V _ b.1 b.2 hIy1]
        exact hθ1
      rcases add_report_theta_step V _ _ c.1 c.2 hIx2 hIy2 hEq2 hθ2 with hEq3 | hdiv3
      · exact le_of_eq (congrArg List.length hEq3.clusters)
      · omega
    · have hx3 := add_report_clusters_length V _ c.1 c.2 hIx2
      have hy3 := add_report_clusters_length V _ c.1 c.2 hIy2
      omega
  · exfalso
    simp only [List.length_cons] at hlen
    omega

/-- Witness for C9's amended theorem on the first three counterexample
inputs (both runs end with 2 clusters there). -/
theorem threshold_monotone_upto_three_witness :
    (runAdds VC9 (mkEngine (mkRat 2 5)) [("q", 0), ("r", 0), ("x1", 0)]).clusters.length
      ≤ (runAdds VC9 (mkEngine (mkRat 4 5))
          [("q", 0), ("r", 0), ("x1", 0)]).clusters.length :=
  threshold_monotone_upto_three VC9 (mkRat 2 5) (mkRat 4 5)
    [("q", 0), ("r", 0), ("x1", 0)] (by decide) (by decide)

end HotSpot
